import Mathlib

set_option maxHeartbeats 1000000

/-! Formal model of the dual-pipeline document ingestion and retrieval
subsystem of the diagnostics-chatbot repository (`src/services/ingest.py`,
`src/services/agent.py`, `src/services/utils.py`, `src/main.py`), together
with a faithful embedding of the text splitter the repository configures in
`_ingest_with_pipeline_a`: langchain's `RecursiveCharacterTextSplitter`
with `chunk_size=750`, `chunk_overlap=100` and its default separators and
`keep_separator=True`.  Texts are modelled as lists of characters, the
external collaborators (document loaders, embedding providers, vector
stores, the description LLM, the semantic chunker of pipeline B) as oracle
fields of an environment record, and the side effects of an ingestion as an
explicit event trace. -/

/-- Character strings are modelled as lists of characters. -/
abbrev Str := List Char

/-- Whitespace test matching Python's `str.split()` / `str.strip()`
defaults on ASCII text. -/
def isPyWs (c : Char) : Bool :=
  c == ' ' || c == '\t' || c == '\n' || c == '\r' || c == '\x0b' || c == '\x0c'

/-- Python `str.strip()`: remove leading and trailing whitespace. -/
def pyStrip (s : Str) : Str :=
  ((s.dropWhile isPyWs).reverse.dropWhile isPyWs).reverse

/-- Helper for `pySplitWs`, accumulating the current word in reverse. -/
def pySplitWsAux : Str → Str → List Str
  | [], acc => if acc = [] then [] else [acc.reverse]
  | c :: rest, acc =>
    if isPyWs c then
      if acc = [] then pySplitWsAux rest []
      else acc.reverse :: pySplitWsAux rest []
    else pySplitWsAux rest (c :: acc)

/-- Python `str.split()` with no arguments: split on runs of whitespace,
dropping empty pieces. -/
def pySplitWs (s : Str) : List Str :=
  pySplitWsAux s []

/-- Truncation performed by `generate_file_description`
(`src/services/utils.py` lines 101-103): the first 1000
whitespace-delimited words, re-joined with single spaces, that is
`" ".join(content.split()[:1000])`. -/
def truncateWords (content : Str) : Str :=
  List.intercalate [' '] ((pySplitWs content).take 1000)

/-- Leftmost occurrence split: `splitFirst sep text = some (pre, post)`
when `text = pre ++ sep ++ post` at the first occurrence of `sep`, `none`
when `sep` does not occur in `text`. -/
def splitFirst (sep : Str) : Str → Option (Str × Str)
  | [] => none
  | c :: rest =>
    if sep.isPrefixOf (c :: rest) then some ([], (c :: rest).drop sep.length)
    else
      match splitFirst sep rest with
      | some (pre, post) => some (c :: pre, post)
      | none => none

/-- Occurrence test for a literal separator, as `re.search` of the escaped
separator does in `RecursiveCharacterTextSplitter._split_text`. -/
def containsSub (sep text : Str) : Bool :=
  (splitFirst sep text).isSome

/-- Fueled form of Python `re.split` on a literal non-empty separator,
returning the pieces between occurrences.  Fuel `text.length` always
suffices, as every occurrence consumes at least one character. -/
def splitOnSepF (sep : Str) : Nat → Str → List Str
  | 0, text => [text]
  | fuel + 1, text =>
    match splitFirst sep text with
    | none => [text]
    | some (pre, post) => pre :: splitOnSepF sep fuel post

/-- Pieces of `text` between the occurrences of `sep`. -/
def splitOnSep (sep text : Str) : List Str :=
  splitOnSepF sep text.length text

/-- Model of langchain's `_split_text_with_regex` with
`keep_separator=True` (the `RecursiveCharacterTextSplitter` default): each
separator occurrence is kept, glued to the front of the following piece,
and empty pieces are dropped; the empty separator splits the text into
single characters. -/
def splitWithSep (sep text : Str) : List Str :=
  if sep = [] then (text.map (fun c => [c])).filter (· ≠ [])
  else
    match splitOnSep sep text with
    | [] => []
    | p :: ps => (p :: ps.map (fun q => sep ++ q)).filter (· ≠ [])

/-- Separator-selection loop of
`RecursiveCharacterTextSplitter._split_text`: the first separator that is
empty or occurs in the text is used, and the separators after it are kept
for recursive re-splitting of oversized pieces; when no separator matches,
the last one is used with nothing kept (its empty-list case is unreachable
for the configured separator list). -/
def chooseSep : List Str → Str → Str × List Str
  | [], _ => ([], [])
  | s :: rest, text =>
    if s = [] then ([], [])
    else if containsSub s text then (s, rest)
    else
      match rest with
      | [] => (s, [])
      | _ :: _ => chooseSep rest text

/-- Model of `TextSplitter._join_docs`: join the window with the
separator, strip whitespace (`strip_whitespace` defaults to `True`), and
drop the chunk when the result is empty. -/
def joinDocs (docs : List Str) (sep : Str) : Option Str :=
  let text := pyStrip (List.intercalate sep docs)
  if text = [] then none else some text

/-- Total character count of a list of pieces. -/
def sumLen (l : List Str) : Nat :=
  (l.map List.length).sum

/-- Overlap-retention loop of `TextSplitter._merge_splits`: after a chunk
is emitted, pieces are dropped from the front of the window while the
running total exceeds the overlap budget or the next piece would still not
fit.  On the empty window the Python loop condition is false (the total is
then zero), so returning directly is faithful. -/
def popLoop (cs co dLen sepLen : Nat) : List Str → Nat → List Str × Nat
  | [], total => ([], total)
  | c :: rest, total =>
    if total > co ∨ (total + dLen + sepLen > cs ∧ total > 0) then
      popLoop cs co dLen sepLen rest (total - (c.length + if rest = [] then 0 else sepLen))
    else (c :: rest, total)

/-- State of the fold inside `TextSplitter._merge_splits`: the emitted
chunks, the current window of pieces, and the window's running character
total. -/
structure MergeState where
  docs : List Str
  cur : List Str
  total : Nat

/-- One iteration of the loop of `TextSplitter._merge_splits` on the next
piece `d`: when `d` no longer fits, the window is emitted as a chunk and
shrunk to the retained overlap, and in every case `d` is appended to the
window. -/
def mergeOne (cs co : Nat) (sep : Str) (st : MergeState) (d : Str) : MergeState :=
  let sepLen := sep.length
  let dLen := d.length
  let st1 :=
    if st.total + dLen + (if st.cur = [] then 0 else sepLen) > cs then
      if st.cur = [] then st
      else
        let docs1 :=
          match joinDocs st.cur sep with
          | some doc => st.docs ++ [doc]
          | none => st.docs
        let p := popLoop cs co dLen sepLen st.cur st.total
        ⟨docs1, p.1, p.2⟩
    else st
  let cur1 := st1.cur ++ [d]
  ⟨st1.docs, cur1, st1.total + dLen + (if cur1.length ≤ 1 then 0 else sepLen)⟩

/-- Model of `TextSplitter._merge_splits`. -/
def mergeSplits (cs co : Nat) (sep : Str) (splits : List Str) : List Str :=
  let st := splits.foldl (mergeOne cs co sep) ⟨[], [], 0⟩
  match joinDocs st.cur sep with
  | some doc => st.docs ++ [doc]
  | none => st.docs

/-- Handling of one piece in
`RecursiveCharacterTextSplitter._split_text`: pieces shorter than the
chunk size are collected; an oversized piece first flushes the collected
pieces through the merge step and is then either emitted raw (when no
separators remain) or re-split recursively.  With `keep_separator=True`
the merge joiner is the empty string. -/
def splitStep (cs co : Nat) (recur : Str → List Str) (noMoreSeps : Bool)
    (acc : List Str × List Str) (s : Str) : List Str × List Str :=
  if s.length < cs then (acc.1 ++ [s], acc.2)
  else
    let flushed := if acc.1 = [] then acc.2 else acc.2 ++ mergeSplits cs co [] acc.1
    if noMoreSeps then ([], flushed ++ [s])
    else ([], flushed ++ recur s)

/-- Final step of `RecursiveCharacterTextSplitter._split_text`: the
chunks emitted so far followed by the merge of the still-collected
pieces, when any remain. -/
def splitFinish (cs co : Nat) (acc : List Str × List Str) : List Str :=
  acc.2 ++ (if acc.1 = [] then [] else mergeSplits cs co [] acc.1)

/-- Fueled model of `RecursiveCharacterTextSplitter._split_text`.  The
fuel bounds the recursion depth, and the recursion always shortens the
separator list, so the list's length is enough fuel. -/
def splitTextFuel (cs co : Nat) : Nat → List Str → Str → List Str
  | 0, _, _ => []
  | fuel + 1, seps, text =>
    splitFinish cs co
      ((splitWithSep (chooseSep seps text).1 text).foldl
        (splitStep cs co (splitTextFuel cs co fuel (chooseSep seps text).2)
          (chooseSep seps text).2.isEmpty) ([], []))

/-- Separator list of `RecursiveCharacterTextSplitter`:
`["\n\n", "\n", " ", ""]`. -/
def defaultSeps : List Str :=
  [['\n', '\n'], ['\n'], [' '], []]

/-- Model of `split_text` of the splitter configured in
`_ingest_with_pipeline_a` (`src/services/ingest.py` line 114):
`RecursiveCharacterTextSplitter(chunk_size=750, chunk_overlap=100)`. -/
def splitText (text : Str) : List Str :=
  splitTextFuel 750 100 defaultSeps.length defaultSeps text

/-- Langchain `Document`: page content plus its source metadata, the
metadata reduced to the page number.  Used both for loader pages and for
produced chunks. -/
structure Doc where
  content : Str
  page : Nat
deriving DecidableEq, Repr

/-- Model of `TextSplitter.split_documents`: each page is split on its
own and every chunk inherits its page's metadata, so chunks never cross
page boundaries. -/
def splitDocuments (pages : List Doc) : List Doc :=
  pages.flatMap (fun p => (splitText p.content).map (fun c => ⟨c, p.page⟩))

deriving instance DecidableEq for Except

/-- Document types of `src/schemas/document.py` (`DocumentType`). -/
inductive DocumentType where
  | pdf
  | docx
deriving DecidableEq, Repr

/-- Failure of an external store or loader call, carrying the Python
exception's message. -/
inductive StoreErr where
  | unavailable (msg : String)
deriving DecidableEq, Repr

/-- Failure of the external `similarity_search` calls; the spec's
`InvalidArgument` is included so claims mentioning it can be stated. -/
inductive SearchErr where
  | storeUnavailable (msg : String)
  | invalidArgument
deriving DecidableEq, Repr

/-- Errors surfaced by `ingest_file`.  `batchIndexedFailure` stands for
the spec's `PartialIngestionFailure(failed batch index, total batch
count)`; it is modelled from the spec's words for comparison, and the
theorems below show the source never raises it (a failing batch upsert
propagates the raw store error instead). -/
inductive IngestErr where
  | loadFailed
  | storeFailed (e : StoreErr)
  | invalidArgument
  | batchIndexedFailure (failedBatch totalBatches : Nat)
deriving DecidableEq, Repr

/-- Observable side effects of one ingestion call, in order. -/
inductive Event where
  | loadCall
  | upsertACall (batch : List Doc)
  | upsertBCall (docs : List Doc)
  | llmCall (arg : Str)
deriving DecidableEq, Repr

/-- Oracle record for the external collaborators of one ingestion or
retrieval run: the outcome of loading the file with either loader, the
outcome of the i-th pipeline-A batch upsert, the single pipeline-B
upsert, the description LLM applied to its content argument, pipeline B's
embedding-driven `SemanticChunker` (opaque, embedding-dependent), and the
two adapters' `similarity_search`. -/
structure Env where
  loadPdf : Except Unit (List Doc)
  loadDocx : Except Unit (List Doc)
  upsertA : Nat → Except StoreErr Unit
  upsertB : Except StoreErr Unit
  llm : Str → Except Unit Str
  semanticChunks : List Doc → List Doc
  searchA : String → Int → Except SearchErr (List Doc)
  searchB : String → Int → Except SearchErr (List Doc)

/-- Model of `generate_file_description` (`src/services/utils.py` lines
92-123): truncate the content to its first 1000 whitespace-delimited
words, invoke the LLM collaborator on them, strip the reply; any
collaborator failure is caught and turned into `None`. -/
def generateFileDescription (env : Env) (content : Str) : Option Str :=
  match env.llm (truncateWords content) with
  | .ok s => some (pyStrip s)
  | .error _ => none

/-- Loader dispatch shared by both pipelines (`src/services/ingest.py`
lines 106-111 and 175-180). -/
def loadPages (env : Env) : DocumentType → Except Unit (List Doc)
  | .pdf => env.loadPdf
  | .docx => env.loadDocx

/-- Fueled batching: the slices `texts[i : i + bs]` for
`i = 0, bs, 2*bs, …` as in `range(0, len(texts), batch_size)`. -/
def toBatchesF (bs : Nat) : Nat → List Doc → List (List Doc)
  | _, [] => []
  | 0, _ => []
  | fuel + 1, l => l.take bs :: toBatchesF bs fuel (l.drop bs)

/-- Batches of at most `bs` chunks each, in the original order. -/
def toBatches (bs : Nat) (l : List Doc) : List (List Doc) :=
  toBatchesF bs l.length l

/-- Sequential batch upserts of `_ingest_with_pipeline_a`
(`src/services/ingest.py` lines 117-121): batch `i` is sent with the i-th
upsert call; the first failure aborts the loop and the raw store error
propagates. -/
def upsertBatches (env : Env) : List (List Doc) → Nat → Except IngestErr Unit × List Event
  | [], _ => (.ok (), [])
  | b :: rest, i =>
    match env.upsertA i with
    | .error e => (.error (.storeFailed e), [.upsertACall b])
    | .ok () =>
      let r := upsertBatches env rest (i + 1)
      (r.1, .upsertACall b :: r.2)

/-- Model of `_ingest_with_pipeline_a` (`src/services/ingest.py` lines
85-127): load the pages, split them with the 750/100 splitter, upsert the
chunks in sequential batches of 16, then generate a description from the
"\n"-joined page texts. -/
def ingestWithPipelineA (env : Env) (docType : DocumentType) :
    Except IngestErr (Option Str) × List Event :=
  match loadPages env docType with
  | .error _ => (.error .loadFailed, [.loadCall])
  | .ok pages =>
    let texts := splitDocuments pages
    let r := upsertBatches env (toBatches 16 texts) 0
    match r.1 with
    | .error e => (.error e, .loadCall :: r.2)
    | .ok () =>
      let content := List.intercalate ['\n'] (pages.map (·.content))
      (.ok (generateFileDescription env content),
        .loadCall :: r.2 ++ [.llmCall (truncateWords content)])

/-- Model of `_ingest_with_pipeline_b` (`src/services/ingest.py` lines
152-189): load the pages, split them with the embedding-driven
`SemanticChunker` (an opaque collaborator), and upsert all chunks in one
single unbounded call. -/
def ingestWithPipelineB (env : Env) (docType : DocumentType) :
    Except IngestErr (List Doc) × List Event :=
  match loadPages env docType with
  | .error _ => (.error .loadFailed, [.loadCall])
  | .ok pages =>
    let texts := env.semanticChunks pages
    match env.upsertB with
    | .error e => (.error (.storeFailed e), [.loadCall, .upsertBCall texts])
    | .ok () => (.ok pages, [.loadCall, .upsertBCall texts])

/-- Model of `ingest_file` (`src/services/ingest.py` lines 216-242):
dispatch on the pipeline string; pipeline "A" returns the generated
description, pipeline "B" discards the pages and returns the empty
string, and any other pipeline value raises `ValueError` (the spec's
`InvalidArgument`) before anything else runs. -/
def ingestFile (env : Env) (docType : DocumentType) (pipeline : String) :
    Except IngestErr (Option Str) × List Event :=
  if pipeline = "A" then ingestWithPipelineA env docType
  else if pipeline = "B" then
    let r := ingestWithPipelineB env docType
    (r.1.map (fun _ => some ([] : Str)), r.2)
  else (.error .invalidArgument, [])

/-- Model of `_retrieve_from_pipeline_a` (`src/services/ingest.py` lines
130-148): a plain pass-through to the adapter's
`similarity_search(query, k)`; no validation of `k` is performed. -/
def retrieveFromPipelineA (env : Env) (query : String) (k : Int) :
    Except SearchErr (List Doc) :=
  env.searchA query k

/-- Model of `_retrieve_from_pipeline_b` (`src/services/ingest.py` lines
192-212): a plain pass-through to the adapter's
`similarity_search(query, k)`. -/
def retrieveFromPipelineB (env : Env) (query : String) (k : Int) :
    Except SearchErr (List Doc) :=
  env.searchB query k

/-- Model of `search_knowledge_base` (`src/services/ingest.py` lines
245-261): pipeline A is queried first, then pipeline B, and the two
result lists are concatenated; there is no error handling, so a failure
of either retrieval propagates. -/
def searchKnowledgeBase (env : Env) (query : String) (k : Int) :
    Except SearchErr (List Doc) := do
  let resultsA ← retrieveFromPipelineA env query k
  let resultsB ← retrieveFromPipelineB env query k
  return resultsA ++ resultsB

/-- Entries of the list `query_documents` returns: either a converted
document (`{"content": …, "metadata": …}`) or the error dictionary
(`{"error": …}`) produced by a failed retrieval. -/
inductive QEntry where
  | doc (d : Doc)
  | err (msg : String)
deriving DecidableEq, Repr

/-- Message of the Python exception as rendered by `str(e)` inside the
agent's error dictionaries. -/
def errString : SearchErr → String
  | .storeUnavailable msg => msg
  | .invalidArgument => "invalid argument"

/-- Modelled from the spec: `document_ingestion_service_a.retrieve_chunks`
is imported and called by `src/services/agent.py` but its definition is
missing from the sources; per the spec's adapter contract (sections 4.1
and 6) it performs the pipeline-A adapter's `similarity_search(query, k)`. -/
def retrieveChunksA (env : Env) (query : String) (k : Int) :
    Except SearchErr (List Doc) :=
  env.searchA query k

/-- Modelled from the spec: pipeline B's missing
`document_ingestion_service_b.retrieve_chunks`, as for pipeline A. -/
def retrieveChunksB (env : Env) (query : String) (k : Int) :
    Except SearchErr (List Doc) :=
  env.searchB query k

/-- Model of `retrieve_documents_a` (`src/services/agent.py` lines
113-121): results are converted to content/metadata dictionaries; a
failure is caught and replaced by a single error dictionary. -/
def retrieveDocumentsA (env : Env) (query : String) (k : Int) : List QEntry :=
  match retrieveChunksA env query k with
  | .ok docs => docs.map QEntry.doc
  | .error e => [QEntry.err ("Error retrieving documents: " ++ errString e)]

/-- Model of `retrieve_documents_b` (`src/services/agent.py` lines
124-132). -/
def retrieveDocumentsB (env : Env) (query : String) (k : Int) : List QEntry :=
  match retrieveChunksB env query k with
  | .ok docs => docs.map QEntry.doc
  | .error e => [QEntry.err ("Error retrieving documents: " ++ errString e)]

/-- Model of `query_documents` (`src/services/agent.py` lines 184-191):
the pipeline-A entries followed by the pipeline-B entries. -/
def queryDocuments (env : Env) (query : String) (k : Int) : List QEntry :=
  retrieveDocumentsA env query k ++ retrieveDocumentsB env query k

/-- File registry record (`src/services/agent.py` lines 163-171 and
`src/services/utils.py` lines 50-57). -/
structure FileRecord where
  filename : String
  contentType : DocumentType
  size : Nat
  description : Option String
  uploadTimestamp : String
  filePath : String
deriving DecidableEq, Repr

/-- Registry state: the `uploaded_files` dictionary, keyed by file id. -/
def Registry := String → Option FileRecord

/-- Model of `register_uploaded_file` (`src/services/agent.py` lines
155-171, duplicated in `src/services/utils.py` lines 27-59): build a
fresh record from the arguments and the current timestamp and store it
under `file_id`, replacing any previous record for that id. -/
def registerUploadedFile (reg : Registry) (fileId filename : String)
    (contentType : DocumentType) (size : Nat) (filePath : String)
    (description : Option String) (now : String) : Registry :=
  fun g =>
    if g = fileId then
      some ⟨filename, contentType, size, description, now, filePath⟩
    else reg g

/-- Model of `get_file_metadata` (`src/services/agent.py` lines 179-181
and `src/services/utils.py` lines 67-69). -/
def getFileMetadata (reg : Registry) (fileId : String) : Option FileRecord :=
  reg fileId

/-- Distance metrics of the vector store (`qdrant_client`'s `Distance`). -/
inductive Metric where
  | cosine
  | euclid
  | dot
deriving DecidableEq, Repr

/-- Collection parameters, as in `VectorParams(size=…, distance=…)`. -/
structure CollectionParams where
  dim : Nat
  metric : Metric
deriving DecidableEq, Repr

/-- Vector-store state: the existing collections by name. -/
def StoreState := String → Option CollectionParams

/-- External `create_collection` call of the vector-store client: fails
when a collection of that name already exists, otherwise records the new
collection with the requested parameters. -/
def createCollection (s : StoreState) (name : String) (p : CollectionParams) :
    Except Unit StoreState :=
  match s name with
  | some _ => .error ()
  | none => .ok (fun n => if n = name then some p else s n)

/-- Model of the collection bootstrap (`src/services/ingest.py` lines
42-49): `create_collection` wrapped in `try … except Exception: pass`, so
the already-exists failure is swallowed and no error can reach the caller
(the function is total and returns plain state). -/
def ensureCollection (s : StoreState) (name : String) (p : CollectionParams) :
    StoreState :=
  match createCollection s name p with
  | .ok s1 => s1
  | .error _ => s

/-- Invariant of the merge fold (empty joiner): the running total is the
window's character count, it never exceeds the chunk size, and every
emitted chunk is within the chunk size. -/
def MergeInv (cs : Nat) (st : MergeState) : Prop :=
  st.total = sumLen st.cur ∧ st.total ≤ cs ∧ ∀ c ∈ st.docs, c.length ≤ cs

/-- Well-formedness of a separator list for the splitter: it contains the
empty separator (as the configured list does) or is empty. -/
def SepsOk (seps : List Str) : Prop := [] ∈ seps ∨ seps = []

/-- Pipeline-A result list used in the C1 environment. -/
def resA : List Doc := [⟨['a'], 1⟩]

/-- Pipeline-B result list used in the C1 environment. -/
def resB : List Doc := [⟨['b'], 2⟩, ⟨['c'], 3⟩]

/-- Concrete environment for C1: both adapters succeed. -/
def envC1 : Env where
  loadPdf := .ok []
  loadDocx := .ok []
  upsertA := fun _ => .ok ()
  upsertB := .ok ()
  llm := fun _ => .error ()
  semanticChunks := fun pages => pages
  searchA := fun _ _ => .ok resA
  searchB := fun _ _ => .ok resB

/-- Concrete environment for C2. -/
def envC2 : Env where
  loadPdf := .ok []
  loadDocx := .ok []
  upsertA := fun _ => .ok ()
  upsertB := .ok ()
  llm := fun _ => .error ()
  semanticChunks := fun pages => pages
  searchA := fun _ _ => .ok []
  searchB := fun _ _ => .ok []

/-- Seventeen one-character pages: pipeline A chunks them into seventeen
chunks, hence two batches of sizes sixteen and one. -/
def pagesC3 : List Doc := (List.range 17).map (fun i => ⟨['a'], i⟩)

/-- Concrete environment for C3: the second batch upsert fails. -/
def envC3 : Env where
  loadPdf := .ok pagesC3
  loadDocx := .error ()
  upsertA := fun i => if i = 0 then .ok () else .error (.unavailable "boom")
  upsertB := .ok ()
  llm := fun _ => .ok ['d']
  semanticChunks := fun pages => pages
  searchA := fun _ _ => .ok []
  searchB := fun _ _ => .ok []

/-- Concrete environment for C4: both adapters answer every query,
including non-positive `k`, with an empty result list. -/
def envC4 : Env where
  loadPdf := .ok []
  loadDocx := .ok []
  upsertA := fun _ => .ok ()
  upsertB := .ok ()
  llm := fun _ => .error ()
  semanticChunks := fun pages => pages
  searchA := fun _ _ => .ok []
  searchB := fun _ _ => .ok []

/-- Single document returned by pipeline B in the C5 environment. -/
def docX : Doc := ⟨['x'], 0⟩

/-- Concrete environment for C5: pipeline A's search fails, pipeline B's
succeeds. -/
def envC5 : Env where
  loadPdf := .ok []
  loadDocx := .ok []
  upsertA := fun _ => .ok ()
  upsertB := .ok ()
  llm := fun _ => .error ()
  semanticChunks := fun pages => pages
  searchA := fun _ _ => .error (.storeUnavailable "boom")
  searchB := fun _ _ => .ok [docX]

/-- Two short pages used by the C6 and C7 environments. -/
def pagesTwo : List Doc := [⟨"hello world".toList, 0⟩, ⟨"second page".toList, 1⟩]

/-- Concrete environment for C6: everything succeeds. -/
def envC6 : Env where
  loadPdf := .ok pagesTwo
  loadDocx := .error ()
  upsertA := fun _ => .ok ()
  upsertB := .ok ()
  llm := fun _ => .ok " a description ".toList
  semanticChunks := fun pages => pages.map (fun p => ⟨p.content, p.page + 100⟩)
  searchA := fun _ _ => .ok []
  searchB := fun _ _ => .ok []

/-- Concrete environment for C7: upserts succeed, the description LLM
fails. -/
def envC7 : Env where
  loadPdf := .ok pagesTwo
  loadDocx := .error ()
  upsertA := fun _ => .ok ()
  upsertB := .ok ()
  llm := fun _ => .error ()
  semanticChunks := fun pages => pages
  searchA := fun _ _ => .ok []
  searchB := fun _ _ => .ok []

/-- Single short page used by the C8 witness. -/
def pageC8 : Doc := ⟨"one two".toList, 4⟩

/-- Three hundred letters `a`. -/
def cexA : Str := List.replicate 300 'a'

/-- Three hundred letters `b`. -/
def cexB : Str := List.replicate 300 'b'

/-- Three hundred letters `c`. -/
def cexC : Str := List.replicate 300 'c'

/-- Counterexample text for C8: three 300-character words separated by
single spaces, 902 characters in total. -/
def cexText : Str := cexA ++ (' ' :: (cexB ++ (' ' :: cexC)))

/-- First chunk the configured splitter produces on `cexText`: the first
two words, 601 characters. -/
def cexChunk1 : Str := cexA ++ ' ' :: cexB

/-- Pre-existing registry record used by the C10 witness. -/
def recG : FileRecord :=
  ⟨"g.docx", .docx, 7, none, "2026-01-01T00:00:00+00:00", "uploads/g.docx"⟩

/-- Registry holding only the record `recG` under id "G". -/
def regC10 : Registry :=
  fun g => if g = "G" then some recG else none

theorem sumLen_append (a b : List Str) : sumLen (a ++ b) = sumLen a + sumLen b := by
  simp [sumLen]

theorem sumLen_cons (x : Str) (l : List Str) : sumLen (x :: l) = x.length + sumLen l := by
  simp [sumLen]

theorem pyStrip_length_le (s : Str) : (pyStrip s).length ≤ s.length := by
  unfold pyStrip
  have h1 := (List.dropWhile_sublist (p := isPyWs) (l := s)).length_le
  have h2 := (List.dropWhile_sublist (p := isPyWs)
    (l := (s.dropWhile isPyWs).reverse)).length_le
  simp only [List.length_reverse] at *
  omega

theorem intercalate_nil_eq_flatten (l : List Str) :
    List.intercalate ([] : Str) l = l.flatten := by
  unfold List.intercalate
  induction l with
  | nil => rfl
  | cons x xs ih =>
    cases xs with
    | nil => simp
    | cons y zs =>
      simp only [List.intersperse] at *
      simp only [List.flatten_cons] at *
      simp [ih]

theorem joinDocs_nil_length (docs : List Str) (doc : Str)
    (h : joinDocs docs [] = some doc) : doc.length ≤ sumLen docs := by
  unfold joinDocs at h
  by_cases hne : pyStrip (List.intercalate ([] : Str) docs) = []
  · simp [hne] at h
  · simp [hne] at h
    subst h
    calc (pyStrip (List.intercalate ([] : Str) docs)).length
        ≤ (List.intercalate ([] : Str) docs).length := pyStrip_length_le _
      _ = sumLen docs := by
          rw [intercalate_nil_eq_flatten, List.length_flatten]; rfl

theorem popLoop_spec (cs co dLen : Nat) :
    ∀ (cur : List Str) (total : Nat), total = sumLen cur →
    (popLoop cs co dLen 0 cur total).2 = sumLen (popLoop cs co dLen 0 cur total).1 ∧
    (popLoop cs co dLen 0 cur total).2 ≤ co ∧
    ((popLoop cs co dLen 0 cur total).2 + dLen ≤ cs ∨ (popLoop cs co dLen 0 cur total).2 = 0) := by
  intro cur
  induction cur with
  | nil =>
    intro total htot
    simp [sumLen] at htot
    subst htot
    simp [popLoop, sumLen]
  | cons c rest ih =>
    intro total htot
    rw [popLoop]
    split
    · have harith : total - (c.length + if rest = [] then 0 else 0) = sumLen rest := by
        rw [htot, sumLen_cons]
        cases rest <;> simp
      rw [harith]
      exact ih (sumLen rest) rfl
    · rename_i hcond
      push_neg at hcond
      refine ⟨htot, hcond.1, ?_⟩
      by_cases hc : total + dLen + 0 > cs
      · have := hcond.2 hc
        right
        omega
      · left
        omega

theorem mergeOne_nil_no_overflow (cs co : Nat) (st : MergeState) (d : Str)
    (h : ¬ st.total + d.length > cs) :
    mergeOne cs co [] st d = ⟨st.docs, st.cur ++ [d], st.total + d.length⟩ := by
  rw [mergeOne]
  simp [h]

theorem mergeOne_nil_overflow (cs co : Nat) (st : MergeState) (d : Str)
    (hover : st.total + d.length > cs) (hcur : st.cur ≠ []) :
    mergeOne cs co [] st d =
      ⟨(match joinDocs st.cur [] with
        | some doc => st.docs ++ [doc]
        | none => st.docs),
       (popLoop cs co d.length 0 st.cur st.total).1 ++ [d],
       (popLoop cs co d.length 0 st.cur st.total).2 + d.length⟩ := by
  rw [mergeOne]
  simp [hover, hcur]

theorem mergeOne_inv (cs co : Nat) (st : MergeState) (d : Str)
    (hd : d.length < cs) (h : MergeInv cs st) :
    MergeInv cs (mergeOne cs co [] st d) := by
  obtain ⟨htot, hle, hdocs⟩ := h
  by_cases hover : st.total + d.length > cs
  · have hcur : st.cur ≠ [] := by
      intro hnil
      rw [hnil] at htot
      simp [sumLen] at htot
      omega
    rw [mergeOne_nil_overflow cs co st d hover hcur]
    have hps := popLoop_spec cs co d.length st.cur st.total htot
    refine ⟨?_, ?_, ?_⟩
    · simp only
      rw [sumLen_append, sumLen_cons]
      simp [sumLen, hps.1]
    · simp only
      rcases hps.2.2 with hfit | hzero
      · omega
      · rw [hzero]; omega
    · intro c hc
      simp only at hc
      rcases hjd : joinDocs st.cur [] with _ | doc
      · rw [hjd] at hc
        simp only at hc
        exact hdocs c hc
      · rw [hjd] at hc
        simp only [List.mem_append, List.mem_singleton] at hc
        rcases hc with hc | rfl
        · exact hdocs c hc
        · calc c.length ≤ sumLen st.cur := joinDocs_nil_length st.cur c hjd
            _ = st.total := htot.symm
            _ ≤ cs := hle
  · rw [mergeOne_nil_no_overflow cs co st d hover]
    refine ⟨?_, ?_, ?_⟩
    · simp only
      rw [sumLen_append, sumLen_cons]
      simp [sumLen, htot]
    · simp only; omega
    · intro c hc
      exact hdocs c hc

theorem foldl_mergeOne_inv (cs co : Nat) :
    ∀ (splits : List Str) (st : MergeState),
    (∀ s ∈ splits, s.length < cs) → MergeInv cs st →
    MergeInv cs (splits.foldl (mergeOne cs co []) st) := by
  intro splits
  induction splits with
  | nil => intro st _ h; exact h
  | cons s rest ih =>
    intro st hs h
    rw [List.foldl_cons]
    exact ih _ (fun x hx => hs x (List.mem_cons_of_mem s hx))
      (mergeOne_inv cs co st s (hs s (List.mem_cons_self s rest)) h)

theorem mergeSplits_chunk_le (cs co : Nat) (splits : List Str)
    (hs : ∀ s ∈ splits, s.length < cs) :
    ∀ c ∈ mergeSplits cs co [] splits, c.length ≤ cs := by
  intro c hc
  rw [mergeSplits] at hc
  have hinv := foldl_mergeOne_inv cs co splits ⟨[], [], 0⟩ hs
    ⟨by simp [sumLen], by simp, by simp⟩
  set st := splits.foldl (mergeOne cs co []) ⟨[], [], 0⟩ with hst
  obtain ⟨htot, hle, hdocs⟩ := hinv
  rcases hjd : joinDocs st.cur [] with _ | doc
  · rw [hjd] at hc
    exact hdocs c hc
  · rw [hjd] at hc
    simp only [List.mem_append, List.mem_singleton] at hc
    rcases hc with hc | rfl
    · exact hdocs c hc
    · calc c.length ≤ sumLen st.cur := joinDocs_nil_length st.cur c hjd
        _ = st.total := htot.symm
        _ ≤ cs := hle

theorem chooseSep_spec (text : Str) :
    ∀ seps, SepsOk seps →
    ((chooseSep seps text).1 = [] ∨ [] ∈ (chooseSep seps text).2) ∧
    SepsOk (chooseSep seps text).2 := by
  intro seps
  induction seps with
  | nil =>
    intro _
    simp [chooseSep, SepsOk]
  | cons s rest ih =>
    intro hok
    by_cases hs : s = []
    · simp [chooseSep, hs, SepsOk]
    · have hmem : [] ∈ rest := by
        rcases hok with h | h
        · rcases List.mem_cons.mp h with h1 | h1
          · exact absurd h1.symm hs
          · exact h1
        · exact absurd h (by simp)
      by_cases hc : containsSub s text
      · simp only [chooseSep, if_neg hs, if_pos hc]
        exact ⟨Or.inr hmem, Or.inl hmem⟩
      · cases rest with
        | nil => cases hmem
        | cons r rs =>
          simp only [chooseSep, if_neg hs, if_neg hc]
          exact ih (Or.inl hmem)

theorem splitWithSep_nil_mem (text : Str) (s : Str)
    (h : s ∈ splitWithSep [] text) : s.length = 1 := by
  simp [splitWithSep] at h
  obtain ⟨⟨c, _, rfl⟩, _⟩ := h
  rfl

theorem splitStep_fold_inv (cs co : Nat) (recur : Str → List Str) (b : Bool) :
    ∀ (splits : List Str) (acc : List Str × List Str),
    (∀ g ∈ acc.1, g.length < cs) →
    (∀ c ∈ acc.2, c.length ≤ cs) →
    (∀ s ∈ splits, s.length < cs ∨ (b = false ∧ ∀ c ∈ recur s, c.length ≤ cs)) →
    (∀ g ∈ (splits.foldl (splitStep cs co recur b) acc).1, g.length < cs) ∧
    (∀ c ∈ (splits.foldl (splitStep cs co recur b) acc).2, c.length ≤ cs) := by
  intro splits
  induction splits with
  | nil => intro acc h1 h2 _; exact ⟨h1, h2⟩
  | cons s rest ih =>
    intro acc h1 h2 hs
    rw [List.foldl_cons]
    have hstep1 : ∀ g ∈ (splitStep cs co recur b acc s).1, g.length < cs := by
      intro g hg
      rw [splitStep] at hg
      by_cases hlen : s.length < cs
      · simp only [if_pos hlen, List.mem_append, List.mem_singleton] at hg
        rcases hg with hg | rfl
        · exact h1 g hg
        · exact hlen
      · simp only [if_neg hlen] at hg
        split at hg <;> simp at hg
    have hstep2 : ∀ c ∈ (splitStep cs co recur b acc s).2, c.length ≤ cs := by
      intro c hc
      rw [splitStep] at hc
      by_cases hlen : s.length < cs
      · simp only [if_pos hlen] at hc
        exact h2 c hc
      · simp only [if_neg hlen] at hc
        have hflush : ∀ c2 ∈ (if acc.1 = [] then acc.2 else acc.2 ++ mergeSplits cs co [] acc.1),
            c2.length ≤ cs := by
          intro c2 hc2
          by_cases hacc : acc.1 = []
          · rw [if_pos hacc] at hc2
            exact h2 c2 hc2
          · rw [if_neg hacc] at hc2
            rcases List.mem_append.mp hc2 with hx | hx
            · exact h2 c2 hx
            · exact mergeSplits_chunk_le cs co acc.1 h1 c2 hx
        rcases hs s (List.mem_cons_self s rest) with hcon | ⟨hb, hrec⟩
        · exact absurd hcon hlen
        · rw [hb] at hc
          simp only [Bool.false_eq_true, if_neg] at hc
          rcases List.mem_append.mp hc with hx | hx
          · exact hflush c hx
          · exact hrec c hx
    exact ih _ hstep1 hstep2 (fun x hx => hs x (List.mem_cons_of_mem s hx))

theorem splitTextFuel_chunk_le :
    ∀ (fuel : Nat) (seps : List Str) (text : Str), SepsOk seps →
    ∀ c ∈ splitTextFuel 750 100 fuel seps text, c.length ≤ 750 := by
  intro fuel
  induction fuel with
  | zero =>
    intro seps text _ c hc
    rw [splitTextFuel] at hc
    cases hc
  | succ f ih =>
    intro seps text hok c hc
    rw [splitTextFuel] at hc
    obtain ⟨hchoice, hchoiceok⟩ := chooseSep_spec text seps hok
    set sr := chooseSep seps text with hsr
    have hsplits : ∀ s ∈ splitWithSep sr.1 text,
        s.length < 750 ∨ (sr.2.isEmpty = false ∧
          ∀ c2 ∈ splitTextFuel 750 100 f sr.2 s, c2.length ≤ 750) := by
      intro s hsmem
      rcases hchoice with hnil | hmem
      · left
        rw [hnil] at hsmem
        rw [splitWithSep_nil_mem text s hsmem]
        omega
      · right
        constructor
        · cases h2 : sr.2 with
          | nil => rw [h2] at hmem; cases hmem
          | cons a as => rfl
        · exact ih sr.2 s hchoiceok
    have hfold := splitStep_fold_inv 750 100 (splitTextFuel 750 100 f sr.2)
      sr.2.isEmpty (splitWithSep sr.1 text) ([], [])
      (by simp) (by simp) hsplits
    rw [splitFinish] at hc
    rcases List.mem_append.mp hc with hx | hx
    · exact hfold.2 c hx
    · split at hx
      · cases hx
      · exact mergeSplits_chunk_le 750 100 _ hfold.1 c hx

theorem splitText_chunk_le (text : Str) : ∀ c ∈ splitText text, c.length ≤ 750 :=
  splitTextFuel_chunk_le defaultSeps.length defaultSeps text (Or.inl (by simp [defaultSeps]))

theorem splitFirst_not_head (c : Char) (s : Str) :
    ∀ text : Str, c ∉ text → splitFirst (c :: s) text = none := by
  intro text
  induction text with
  | nil => intro _; rfl
  | cons d rest ih =>
    intro h
    have hcd : c ≠ d := fun hc => h (hc ▸ List.mem_cons_self d rest)
    have hpre : (c :: s).isPrefixOf (d :: rest) = false := by
      simp [List.isPrefixOf, hcd]
    rw [splitFirst, hpre]
    simp [ih (fun hm => h (List.mem_cons_of_mem d hm))]

theorem splitFirst_single_at (c : Char) :
    ∀ (pre post : Str), c ∉ pre →
    splitFirst [c] (pre ++ c :: post) = some (pre, post) := by
  intro pre
  induction pre with
  | nil =>
    intro post _
    have hpre : ([c] : Str).isPrefixOf (c :: post) = true := by
      simp [List.isPrefixOf]
    simp only [List.nil_append]
    rw [splitFirst, hpre]
    simp
  | cons d ds ih =>
    intro post h
    have hcd : c ≠ d := fun hc => h (hc ▸ List.mem_cons_self d ds)
    have hpre : ([c] : Str).isPrefixOf (d :: (ds ++ c :: post)) = false := by
      simp [List.isPrefixOf, hcd]
    rw [List.cons_append, splitFirst, hpre]
    simp [ih post (fun hm => h (List.mem_cons_of_mem d hm))]

theorem splitOnSepF_of_none (sep : Str) (fuel : Nat) (text : Str)
    (h : splitFirst sep text = none) : splitOnSepF sep fuel text = [text] := by
  cases fuel with
  | zero => rfl
  | succ f => rw [splitOnSepF, h]

theorem splitOnSepF_of_some (sep : Str) (fuel : Nat) (text pre post : Str)
    (h : splitFirst sep text = some (pre, post)) :
    splitOnSepF sep (fuel + 1) text = pre :: splitOnSepF sep fuel post := by
  rw [splitOnSepF, h]

theorem nl_not_mem_cexText : '\n' ∉ cexText := by
  simp only [cexText, cexA, cexB, cexC, List.mem_append, List.mem_cons,
    List.mem_replicate]
  decide

theorem sp_not_mem_cexA : ' ' ∉ cexA := by
  simp only [cexA, List.mem_replicate]
  decide

theorem chooseSep_cex : chooseSep defaultSeps cexText = ([' '], [[]]) := by
  have h1 : containsSub ['\n', '\n'] cexText = false := by
    rw [containsSub, splitFirst_not_head '\n' ['\n'] cexText nl_not_mem_cexText]
    rfl
  have h2 : containsSub ['\n'] cexText = false := by
    rw [containsSub, splitFirst_not_head '\n' [] cexText nl_not_mem_cexText]
    rfl
  have h3 : containsSub [' '] cexText = true := by
    rw [containsSub, cexText,
      splitFirst_single_at ' ' cexA (cexB ++ (' ' :: cexC)) sp_not_mem_cexA]
    rfl
  simp [defaultSeps, chooseSep, h1, h2, h3]

theorem sp_not_mem_cexB : ' ' ∉ cexB := by
  simp only [cexB, List.mem_replicate]
  decide

theorem sp_not_mem_cexC : ' ' ∉ cexC := by
  simp only [cexC, List.mem_replicate]
  decide

theorem cexText_length : cexText.length = 902 := by
  simp only [cexText, cexA, cexB, cexC, List.length_append, List.length_cons,
    List.length_replicate]

theorem cexA_ne_nil : cexA ≠ [] := by
  intro h
  have hlen := congrArg List.length h
  rw [cexA, List.length_replicate] at hlen
  simp at hlen

theorem splitOnSep_cex : splitOnSep [' '] cexText = [cexA, cexB, cexC] := by
  have hf1 : splitFirst [' '] cexText = some (cexA, cexB ++ (' ' :: cexC)) := by
    rw [cexText]
    exact splitFirst_single_at ' ' cexA (cexB ++ (' ' :: cexC)) sp_not_mem_cexA
  have hf2 : splitFirst [' '] (cexB ++ (' ' :: cexC)) = some (cexB, cexC) :=
    splitFirst_single_at ' ' cexB cexC sp_not_mem_cexB
  have hf3 : splitFirst [' '] cexC = none :=
    splitFirst_not_head ' ' [] cexC sp_not_mem_cexC
  rw [splitOnSep, cexText_length]
  rw [show (902 : Nat) = 901 + 1 from rfl, splitOnSepF_of_some _ _ _ _ _ hf1]
  rw [show (901 : Nat) = 900 + 1 from rfl, splitOnSepF_of_some _ _ _ _ _ hf2]
  rw [splitOnSepF_of_none _ _ _ hf3]

theorem splitWithSep_cex :
    splitWithSep [' '] cexText = [cexA, ' ' :: cexB, ' ' :: cexC] := by
  rw [splitWithSep]
  rw [if_neg (by simp : ¬([' '] : Str) = [])]
  rw [splitOnSep_cex]
  simp only [List.map_cons, List.map_nil, List.singleton_append, List.cons_append,
    List.nil_append]
  rw [List.filter_cons, List.filter_cons, List.filter_cons, List.filter_nil]
  rw [if_pos ((decide_eq_true_eq).mpr cexA_ne_nil)]
  rw [if_pos (by simp : decide ((' ' :: cexB : Str) ≠ []) = true)]
  rw [if_pos (by simp : decide ((' ' :: cexC : Str) ≠ []) = true)]

theorem cexA_length : cexA.length = 300 := by
  rw [cexA, List.length_replicate]

theorem spB_length : (' ' :: cexB : Str).length = 301 := by
  rw [List.length_cons, cexB, List.length_replicate]

theorem spC_length : (' ' :: cexC : Str).length = 301 := by
  rw [List.length_cons, cexC, List.length_replicate]

theorem foldl_splitStep_cex (recur : Str → List Str) (b : Bool) :
    ([cexA, ' ' :: cexB, ' ' :: cexC] : List Str).foldl
      (splitStep 750 100 recur b) ([], []) =
    ([cexA, ' ' :: cexB, ' ' :: cexC], []) := by
  rw [List.foldl_cons, List.foldl_cons, List.foldl_cons, List.foldl_nil]
  rw [splitStep, if_pos (by rw [spC_length]; norm_num)]
  rw [splitStep, if_pos (by rw [spB_length]; norm_num)]
  rw [splitStep, if_pos (by rw [cexA_length]; norm_num)]
  rfl

theorem cexA_cons : cexA = 'a' :: List.replicate 299 'a' := by
  rw [cexA, show (300 : Nat) = 299 + 1 from rfl, List.replicate_succ]

theorem cexB_cons : cexB = 'b' :: List.replicate 299 'b' := by
  rw [cexB, show (300 : Nat) = 299 + 1 from rfl, List.replicate_succ]

theorem cexC_cons : cexC = 'c' :: List.replicate 299 'c' := by
  rw [cexC, show (300 : Nat) = 299 + 1 from rfl, List.replicate_succ]

theorem dropWhile_cons_of_false (c : Char) (t : Str) (h : isPyWs c = false) :
    (c :: t).dropWhile isPyWs = c :: t := by
  rw [List.dropWhile_cons, h]
  simp

theorem pyStrip_eq_self_of (s : Str)
    (h1 : s.dropWhile isPyWs = s)
    (h2 : s.reverse.dropWhile isPyWs = s.reverse) : pyStrip s = s := by
  rw [pyStrip, h1, h2, List.reverse_reverse]

theorem pyStrip_chunk1 : pyStrip cexChunk1 = cexChunk1 := by
  apply pyStrip_eq_self_of
  · rw [cexChunk1, cexA_cons, List.cons_append]
    exact dropWhile_cons_of_false 'a' _ (by decide)
  · rw [cexChunk1, List.reverse_append, List.reverse_cons, cexB_cons]
    rw [List.reverse_cons, List.reverse_replicate]
    rw [List.append_assoc, List.append_assoc, List.cons_append]
    exact dropWhile_cons_of_false 'b' _ (by decide)

theorem joinDocs_chunk1 : joinDocs [cexA, ' ' :: cexB] [] = some cexChunk1 := by
  rw [joinDocs]
  rw [intercalate_nil_eq_flatten, List.flatten_cons, List.flatten_cons,
    List.flatten_nil, List.append_nil]
  rw [show cexA ++ ' ' :: cexB = cexChunk1 from rfl]
  rw [pyStrip_chunk1]
  rw [if_neg]
  intro h
  have hlen := congrArg List.length h
  rw [cexChunk1, List.length_append, List.length_cons, cexA, cexB,
    List.length_replicate, List.length_replicate] at hlen
  simp at hlen

theorem pyStrip_spC : pyStrip (' ' :: cexC) = cexC := by
  rw [pyStrip]
  rw [List.dropWhile_cons]
  rw [show isPyWs ' ' = true from rfl]
  simp only [if_pos]
  rw [cexC_cons, dropWhile_cons_of_false 'c' _ (by decide)]
  rw [← cexC_cons]
  rw [show cexC.reverse = cexC from by rw [cexC, List.reverse_replicate]]
  rw [cexC_cons, dropWhile_cons_of_false 'c' _ (by decide), ← cexC_cons]
  rw [show cexC.reverse = cexC from by rw [cexC, List.reverse_replicate]]

theorem joinDocs_spC : joinDocs [' ' :: cexC] [] = some cexC := by
  rw [joinDocs]
  rw [intercalate_nil_eq_flatten, List.flatten_cons, List.flatten_nil,
    List.append_nil]
  rw [pyStrip_spC]
  rw [if_neg]
  intro h
  have hlen := congrArg List.length h
  rw [cexC, List.length_replicate] at hlen
  simp at hlen

theorem popLoop_cex :
    popLoop 750 100 301 0 [cexA, ' ' :: cexB] 601 = ([], 0) := by
  rw [popLoop, if_pos (by norm_num)]
  rw [cexA_length]
  rw [if_neg (by simp : ¬([' ' :: cexB] : List Str) = [])]
  norm_num
  rw [popLoop, if_pos (by norm_num)]
  rw [spB_length]
  norm_num
  rw [popLoop]

theorem mergeSplits_cex :
    mergeSplits 750 100 [] [cexA, ' ' :: cexB, ' ' :: cexC] = [cexChunk1, cexC] := by
  rw [mergeSplits]
  rw [List.foldl_cons, List.foldl_cons, List.foldl_cons, List.foldl_nil]
  rw [mergeOne_nil_no_overflow 750 100 ⟨[], [], 0⟩ cexA
    (by rw [cexA_length]; norm_num)]
  simp only [List.nil_append]
  rw [cexA_length]
  norm_num
  rw [mergeOne_nil_no_overflow 750 100 ⟨[], [cexA], 300⟩ (' ' :: cexB)
    (by rw [spB_length]; norm_num)]
  simp only [List.singleton_append]
  rw [spB_length]
  norm_num
  rw [mergeOne_nil_overflow 750 100 ⟨[], [cexA, ' ' :: cexB], 601⟩ (' ' :: cexC)
    (by rw [spC_length]; norm_num) (by simp)]
  simp only [spC_length]
  rw [popLoop_cex]
  simp only [joinDocs_chunk1, List.nil_append]
  norm_num
  rw [joinDocs_spC]

theorem splitText_cex : splitText cexText = [cexChunk1, cexC] := by
  rw [splitText]
  rw [show defaultSeps.length = 3 + 1 from rfl]
  rw [splitTextFuel]
  rw [chooseSep_cex]
  rw [show (([' '], [[]]) : Str × List Str).1 = [' '] from rfl]
  rw [show (([' '], [[]]) : Str × List Str).2 = [[]] from rfl]
  rw [splitWithSep_cex]
  rw [foldl_splitStep_cex]
  rw [splitFinish]
  rw [show (([cexA, ' ' :: cexB, ' ' :: cexC], []) : List Str × List Str).2
    = [] from rfl]
  rw [show (([cexA, ' ' :: cexB, ' ' :: cexC], []) : List Str × List Str).1
    = [cexA, ' ' :: cexB, ' ' :: cexC] from rfl]
  rw [if_neg (by simp : ¬([cexA, ' ' :: cexB, ' ' :: cexC] : List Str) = [])]
  rw [mergeSplits_cex, List.nil_append]

theorem cexChunk1_length : cexChunk1.length = 601 := by
  rw [cexChunk1, List.length_append, List.length_cons, cexA, cexB,
    List.length_replicate, List.length_replicate]


theorem upsertBatches_ok (env : Env) (hok : ∀ i, env.upsertA i = .ok ()) :
    ∀ (bs : List (List Doc)) (i0 : Nat),
    upsertBatches env bs i0 = (.ok (), bs.map Event.upsertACall) := by
  intro bs
  induction bs with
  | nil => intro i0; rfl
  | cons b rest ih => intro i0; simp [upsertBatches, hok i0, ih (i0 + 1)]

theorem upsertBatches_fail (env : Env) (e : StoreErr) :
    ∀ (j : Nat) (bs : List (List Doc)) (i0 : Nat),
    (∀ i, i < j → env.upsertA (i0 + i) = .ok ()) →
    env.upsertA (i0 + j) = .error e →
    j < bs.length →
    upsertBatches env bs i0 =
      (.error (.storeFailed e),
       (bs.take j).map Event.upsertACall ++ [Event.upsertACall (bs.getD j [])]) := by
  intro j
  induction j with
  | zero =>
    intro bs i0 _ hfail hlen
    match bs with
    | [] => simp at hlen
    | b :: rest =>
      have hf : env.upsertA i0 = .error e := by simpa using hfail
      simp [upsertBatches, hf]
  | succ j ih =>
    intro bs i0 hok hfail hlen
    match bs with
    | [] => simp at hlen
    | b :: rest =>
      have h0 : env.upsertA i0 = .ok () := by
        have h1 := hok 0 (Nat.succ_pos j)
        simpa using h1
      have hok2 : ∀ i, i < j → env.upsertA (i0 + 1 + i) = .ok () := by
        intro i hi
        have h1 := hok (i + 1) (by omega)
        have harith : i0 + (i + 1) = i0 + 1 + i := by omega
        rwa [harith] at h1
      have hfail2 : env.upsertA (i0 + 1 + j) = .error e := by
        have harith : i0 + (j + 1) = i0 + 1 + j := by omega
        rwa [harith] at hfail
      have hlen2 : j < rest.length := by simpa using hlen
      have h2 := ih rest (i0 + 1) hok2 hfail2 hlen2
      simp [upsertBatches, h0, h2]

theorem toBatchesF_flatten (bs : Nat) (hbs : 0 < bs) :
    ∀ (fuel : Nat) (l : List Doc), l.length ≤ fuel →
    (toBatchesF bs fuel l).flatten = l := by
  intro fuel
  induction fuel with
  | zero =>
    intro l hl
    match l with
    | [] => rfl
    | x :: _ => simp at hl
  | succ f ih =>
    intro l hl
    match l with
    | [] => rfl
    | x :: xs =>
      have hdrop : ((x :: xs).drop bs).length ≤ f := by
        simp only [List.length_drop, List.length_cons]
        simp only [List.length_cons] at hl
        omega
      simp only [toBatchesF, List.flatten_cons, ih _ hdrop]
      exact List.take_append_drop bs (x :: xs)

theorem toBatchesF_mem (bs : Nat) (hbs : 0 < bs) :
    ∀ (fuel : Nat) (l : List Doc) (b : List Doc), b ∈ toBatchesF bs fuel l →
    b.length ≤ bs ∧ b ≠ [] := by
  intro fuel
  induction fuel with
  | zero =>
    intro l b hb
    match l with
    | [] => simp [toBatchesF] at hb
    | x :: _ => simp [toBatchesF] at hb
  | succ f ih =>
    intro l b hb
    match l with
    | [] => simp [toBatchesF] at hb
    | x :: xs =>
      simp only [toBatchesF, List.mem_cons] at hb
      rcases hb with rfl | hb
      · constructor
        · exact List.length_take_le bs (x :: xs)
        · have hx : ((x :: xs).take bs).length ≠ 0 := by
            simp only [List.length_take, List.length_cons]
            omega
          intro hnil
          rw [hnil] at hx
          simp at hx
      · exact ih _ _ hb

/-- C1: for every query and positive bound `k`, the fan-out query returns
exactly pipeline A's `similarity_search` results (at most `k`) followed by
pipeline B's (at most `k`), each sub-list in its own internal order with no
re-ranking across pipelines, hence at most `2*k` results in total — both
for `search_knowledge_base` and for `query_documents`. -/
theorem C1_query_fanout_concatenates (env : Env) (q : String) (k : Int)
    (kn : Nat) (as bs : List Doc)
    (ha : env.searchA q k = .ok as) (hb : env.searchB q k = .ok bs)
    (hla : as.length ≤ kn) (hlb : bs.length ≤ kn) :
    searchKnowledgeBase env q k = .ok (as ++ bs) ∧
    queryDocuments env q k = as.map QEntry.doc ++ bs.map QEntry.doc ∧
    (as ++ bs).length ≤ 2 * kn := by
  refine ⟨?_, ?_, ?_⟩
  · simp [searchKnowledgeBase, retrieveFromPipelineA, retrieveFromPipelineB, ha, hb,
      Bind.bind, Except.bind, Pure.pure, Except.pure]
  · simp [queryDocuments, retrieveDocumentsA, retrieveDocumentsB, retrieveChunksA,
      retrieveChunksB, ha, hb]
  · simp only [List.length_append]
    omega

/-- Witness for C1 at the concrete environment `envC1`. -/
theorem C1_query_fanout_concatenates_witness :
    searchKnowledgeBase envC1 "x" 5 = .ok (resA ++ resB) ∧
    queryDocuments envC1 "x" 5 = resA.map QEntry.doc ++ resB.map QEntry.doc ∧
    (resA ++ resB).length ≤ 2 * 5 :=
  C1_query_fanout_concatenates envC1 "x" 5 5 resA resB rfl rfl
    (by decide) (by decide)

/-- C2: `ingest_file` with any pipeline value other than "A" or "B" fails
with `InvalidArgument` (the code's `ValueError`) and its effect trace is
empty — no loader, chunker, embedding, upsert or LLM call happens. -/
theorem C2_invalid_pipeline_rejected (env : Env) (docType : DocumentType)
    (p : String) (hA : p ≠ "A") (hB : p ≠ "B") :
    ingestFile env docType p = (.error .invalidArgument, []) := by
  simp [ingestFile, hA, hB]

/-- Witness for C2 at the concrete pipeline value "C". -/
theorem C2_invalid_pipeline_rejected_witness :
    ingestFile envC2 .docx "C" = (.error .invalidArgument, []) :=
  C2_invalid_pipeline_rejected envC2 .docx "C" (by decide) (by decide)

/-- C3 counterexample: in the concrete environment `envC3` (two batches,
the second upsert failing) the surfaced error is the raw store error, not
a `PartialIngestionFailure` naming batch index 1 of 2 — the source never
constructs such an error. -/
theorem C3_counterexample :
    (ingestFile envC3 .pdf "A").1 = .error (.storeFailed (.unavailable "boom")) ∧
    (ingestFile envC3 .pdf "A").1 ≠ .error (.batchIndexedFailure 1 2) := by
  constructor
  · decide
  · decide

/-- C3 as amended: during a pipeline-A ingestion whose pages load, if the
j-th sequential batch upsert fails, `ingest_file` propagates the raw store
error — it reports neither the failed batch index nor the batch count —
and the batches committed before the failure stay committed: the trace
ends right after the failing call, with no compensating action. -/
theorem C3_batch_failure_raw_error (env : Env) (pages : List Doc)
    (e : StoreErr) (j : Nat)
    (hload : env.loadPdf = .ok pages)
    (hok : ∀ i, i < j → env.upsertA i = .ok ())
    (hfail : env.upsertA j = .error e)
    (hj : j < (toBatches 16 (splitDocuments pages)).length) :
    ingestFile env .pdf "A" =
      (.error (.storeFailed e),
       .loadCall ::
         (((toBatches 16 (splitDocuments pages)).take j).map Event.upsertACall ++
          [Event.upsertACall ((toBatches 16 (splitDocuments pages)).getD j [])])) := by
  have h := upsertBatches_fail env e j (toBatches 16 (splitDocuments pages)) 0
    (by simpa using hok) (by simpa using hfail) hj
  simp [ingestFile, ingestWithPipelineA, loadPages, hload, h]

/-- Witness for the amended C3 at `envC3`, failing batch 1 of 2. -/
theorem C3_batch_failure_raw_error_witness :
    ingestFile envC3 .pdf "A" =
      (.error (.storeFailed (.unavailable "boom")),
       .loadCall ::
         (((toBatches 16 (splitDocuments pagesC3)).take 1).map Event.upsertACall ++
          [Event.upsertACall ((toBatches 16 (splitDocuments pagesC3)).getD 1 [])])) :=
  C3_batch_failure_raw_error envC3 pagesC3 (.unavailable "boom") 1 rfl
    (by intro i hi; interval_cases i; rfl) rfl (by decide)

/-- C4 counterexample: at `k = 0` the pipeline-A retrieval helper and the
fan-out query return successfully (here the empty result list) instead of
failing with `InvalidArgument` — the source validates `k` nowhere. -/
theorem C4_counterexample :
    retrieveFromPipelineA envC4 "x" 0 = .ok [] ∧
    searchKnowledgeBase envC4 "x" 0 = .ok [] :=
  ⟨rfl, rfl⟩

/-- C4 as amended: `similarity_search` is forwarded unvalidated — for
every `k`, including `k ≤ 0`, the helpers pass `(query, k)` through to the
external store clients unchanged, and the fan-out query fails with
`InvalidArgument` only if an external client itself produces that error;
the repository's own code never raises it. -/
theorem C4_no_k_validation (env : Env) (q : String) (k : Int) (_hk : k ≤ 0)
    (hA : ∀ q2 k2, env.searchA q2 k2 ≠ .error .invalidArgument)
    (hB : ∀ q2 k2, env.searchB q2 k2 ≠ .error .invalidArgument) :
    retrieveFromPipelineA env q k = env.searchA q k ∧
    retrieveFromPipelineB env q k = env.searchB q k ∧
    searchKnowledgeBase env q k ≠ .error .invalidArgument := by
  refine ⟨rfl, rfl, ?_⟩
  have ha := hA q k
  have hb := hB q k
  unfold searchKnowledgeBase retrieveFromPipelineA retrieveFromPipelineB
  cases h1 : env.searchA q k with
  | error e =>
    rw [h1] at ha
    simpa [Bind.bind, Except.bind] using fun hcon => ha (by rw [hcon])
  | ok as =>
    cases h2 : env.searchB q k with
    | error e =>
      rw [h2] at hb
      simpa [Bind.bind, Except.bind] using fun hcon => hb (by rw [hcon])
    | ok bs => simp [Bind.bind, Except.bind, Pure.pure, Except.pure]

/-- Witness for the amended C4 at `envC4` and `k = 0`. -/
theorem C4_no_k_validation_witness :
    (0 : Int) ≤ 0 ∧
    (retrieveFromPipelineA envC4 "x" 0 = envC4.searchA "x" 0 ∧
     retrieveFromPipelineB envC4 "x" 0 = envC4.searchB "x" 0 ∧
     searchKnowledgeBase envC4 "x" 0 ≠ .error .invalidArgument) :=
  ⟨le_refl 0, C4_no_k_validation envC4 "x" 0 (le_refl 0)
    (fun _ _ h => Except.noConfusion h) (fun _ _ h => Except.noConfusion h)⟩

/-- C5 counterexample: in `envC5` pipeline A's search fails and pipeline
B's succeeds with `[docX]`; `query_documents` returns an error dictionary
for A followed by B's results — not only the succeeding adapter's results
— and `search_knowledge_base` fails outright instead of degrading. -/
theorem C5_counterexample :
    queryDocuments envC5 "q" 10 =
      [QEntry.err "Error retrieving documents: boom", QEntry.doc docX] ∧
    queryDocuments envC5 "q" 10 ≠ [QEntry.doc docX] ∧
    searchKnowledgeBase envC5 "q" 10 = .error (.storeUnavailable "boom") := by
  refine ⟨rfl, by decide, rfl⟩

/-- C5 as amended: when pipeline A's `similarity_search` fails and
pipeline B's succeeds, `query_documents` does not fail the whole query but
returns a single error-dictionary entry for the failing adapter followed
by the succeeding adapter's results, while `search_knowledge_base`
propagates the failure and fails the whole query. -/
theorem C5_one_adapter_failure (env : Env) (q : String) (k : Int)
    (e : SearchErr) (bs : List Doc)
    (ha : env.searchA q k = .error e) (hb : env.searchB q k = .ok bs) :
    queryDocuments env q k =
      QEntry.err ("Error retrieving documents: " ++ errString e)
        :: bs.map QEntry.doc ∧
    searchKnowledgeBase env q k = .error e := by
  constructor
  · simp [queryDocuments, retrieveDocumentsA, retrieveDocumentsB, retrieveChunksA,
      retrieveChunksB, ha, hb]
  · simp [searchKnowledgeBase, retrieveFromPipelineA, retrieveFromPipelineB, ha,
      Bind.bind, Except.bind]

/-- Witness for the amended C5 at `envC5`. -/
theorem C5_one_adapter_failure_witness :
    queryDocuments envC5 "q" 10 =
      QEntry.err ("Error retrieving documents: "
          ++ errString (.storeUnavailable "boom"))
        :: ([docX] : List Doc).map QEntry.doc ∧
    searchKnowledgeBase envC5 "q" 10 = .error (.storeUnavailable "boom") :=
  C5_one_adapter_failure envC5 "q" 10 (.storeUnavailable "boom") [docX] rfl rfl

/-- C6: in a successful ingestion, pipeline A sends its chunk list as the
sequential slices of sixteen, in the original order — the batches flatten
back to the chunk list, so every chunk lies in exactly one batch, and each
batch is non-empty with at most sixteen chunks — while pipeline B sends
all of its chunks in one single unbounded call. -/
theorem C6_batching_A16_B_single (env : Env) (pages : List Doc)
    (hload : env.loadPdf = .ok pages)
    (hupA : ∀ i, env.upsertA i = .ok ())
    (hupB : env.upsertB = .ok ()) :
    (ingestFile env .pdf "A").2 =
      .loadCall :: ((toBatches 16 (splitDocuments pages)).map Event.upsertACall
        ++ [.llmCall (truncateWords
              (List.intercalate ['\n'] (pages.map (·.content))))]) ∧
    (toBatches 16 (splitDocuments pages)).flatten = splitDocuments pages ∧
    (∀ b ∈ toBatches 16 (splitDocuments pages), b.length ≤ 16 ∧ b ≠ []) ∧
    (ingestFile env .pdf "B").2 =
      [.loadCall, .upsertBCall (env.semanticChunks pages)] := by
  have h := upsertBatches_ok env hupA (toBatches 16 (splitDocuments pages)) 0
  refine ⟨?_, ?_, ?_, ?_⟩
  · simp [ingestFile, ingestWithPipelineA, loadPages, hload, h]
  · exact toBatchesF_flatten 16 (by omega) _ _ le_rfl
  · intro b hb
    exact toBatchesF_mem 16 (by omega) _ _ b hb
  · simp [ingestFile, ingestWithPipelineB, loadPages, hload, hupB]

/-- Witness for C6 at `envC6`. -/
theorem C6_batching_A16_B_single_witness :
    (ingestFile envC6 .pdf "A").2 =
      .loadCall :: ((toBatches 16 (splitDocuments pagesTwo)).map Event.upsertACall
        ++ [.llmCall (truncateWords
              (List.intercalate ['\n'] (pagesTwo.map (·.content))))]) ∧
    (toBatches 16 (splitDocuments pagesTwo)).flatten = splitDocuments pagesTwo ∧
    (∀ b ∈ toBatches 16 (splitDocuments pagesTwo), b.length ≤ 16 ∧ b ≠ []) ∧
    (ingestFile envC6 .pdf "B").2 =
      [.loadCall, .upsertBCall (envC6.semanticChunks pagesTwo)] :=
  C6_batching_A16_B_single envC6 pagesTwo rfl (fun _ => rfl) rfl

/-- C7: in a pipeline-A ingestion whose batch upserts all succeed, the
description LLM is invoked with exactly the first 1000
whitespace-delimited words of the "\n"-concatenation of all page texts,
and when that collaborator fails the ingestion still returns successfully
with description `None` — the failure is swallowed, not propagated. -/
theorem C7_description_failure_swallowed (env : Env) (pages : List Doc)
    (hload : env.loadPdf = .ok pages)
    (hupA : ∀ i, env.upsertA i = .ok ()) :
    Event.llmCall (truncateWords (List.intercalate ['\n'] (pages.map (·.content))))
      ∈ (ingestFile env .pdf "A").2 ∧
    (env.llm (truncateWords (List.intercalate ['\n'] (pages.map (·.content))))
        = .error () →
      (ingestFile env .pdf "A").1 = .ok none) := by
  have h := upsertBatches_ok env hupA (toBatches 16 (splitDocuments pages)) 0
  constructor
  · simp [ingestFile, ingestWithPipelineA, loadPages, hload, h]
  · intro hllm
    simp [ingestFile, ingestWithPipelineA, loadPages, hload, h,
      generateFileDescription, hllm]

/-- Witness for C7 at `envC7`, whose description LLM fails. -/
theorem C7_description_failure_swallowed_witness :
    (Event.llmCall (truncateWords
        (List.intercalate ['\n'] (pagesTwo.map (·.content))))
      ∈ (ingestFile envC7 .pdf "A").2) ∧
    (envC7.llm (truncateWords (List.intercalate ['\n'] (pagesTwo.map (·.content))))
        = .error () →
      (ingestFile envC7 .pdf "A").1 = .ok none) :=
  C7_description_failure_swallowed envC7 pagesTwo rfl (fun _ => rfl)

/-- C8 as amended: for the splitter configured with `chunk_size=750` and
`chunk_overlap=100`, every chunk produced from a list of pages is at most
750 characters long and comes from splitting a single page's text, so
chunk boundaries never cross segment (page) boundaries.  (The original
exact-overlap clause is refuted by `C8_counterexample`.) -/
theorem C8_chunk_bounds (pages : List Doc) (d : Doc)
    (hd : d ∈ splitDocuments pages) :
    d.content.length ≤ 750 ∧
    ∃ p ∈ pages, d.page = p.page ∧ d.content ∈ splitText p.content := by
  simp only [splitDocuments, List.mem_flatMap, List.mem_map] at hd
  obtain ⟨p, hp, c, hc, rfl⟩ := hd
  exact ⟨splitText_chunk_le _ _ hc, p, hp, rfl, hc⟩

/-- Witness for the amended C8 at the one-page input `pageC8`. -/
theorem C8_chunk_bounds_witness :
    (Doc.mk "one two".toList 4 ∈ splitDocuments [pageC8]) ∧
    ((Doc.mk "one two".toList 4).content.length ≤ 750 ∧
     ∃ p ∈ [pageC8], (Doc.mk "one two".toList 4).page = p.page ∧
       (Doc.mk "one two".toList 4).content ∈ splitText p.content) :=
  ⟨by decide, C8_chunk_bounds [pageC8] ⟨"one two".toList, 4⟩ (by decide)⟩

/-- C8 counterexample: on the 902-character text `cexText` the configured
splitter produces the adjacent chunks `cexChunk1` (601 characters) and
`cexC`; the claim demands that they share exactly
`min(100, len(first)) = 100` characters, but the 100-character head of the
second chunk differs from the 100-character tail of the first — the
retained overlap is in fact empty. -/
theorem C8_counterexample :
    splitText cexText = [cexChunk1, cexC] ∧
    cexChunk1.length = 601 ∧
    cexC.take (min 100 cexChunk1.length) ≠
      cexChunk1.drop (cexChunk1.length - min 100 cexChunk1.length) := by
  refine ⟨splitText_cex, cexChunk1_length, ?_⟩
  rw [cexChunk1_length]
  rw [show min 100 601 = 100 from rfl]
  rw [show (601 - 100 : Nat) = 501 from rfl]
  rw [cexC, List.take_replicate]
  rw [cexChunk1, List.drop_append_eq_append_drop, cexA, List.drop_replicate,
    List.length_replicate]
  norm_num
  rw [cexB, List.drop_replicate]
  intro h
  rw [show (100 : Nat) = 99 + 1 from rfl, List.replicate_succ,
    List.replicate_succ, show (300 - 200 : Nat) = 99 + 1 from rfl] at h
  injection h with h1 _
  exact absurd h1 (by decide)

/-- C9: the collection bootstrap is idempotent — a second
`ensure_collection` call with the same name and parameters changes
nothing and the collection exists and is usable after any call; the
bootstrap is a total function into plain store states (the catch-all
`except … pass` swallows the already-exists failure), so no error can
reach the caller. -/
theorem C9_ensure_collection_idempotent (s : StoreState) (name : String)
    (p : CollectionParams) :
    ensureCollection (ensureCollection s name p) name p
      = ensureCollection s name p ∧
    ((ensureCollection s name p) name).isSome := by
  constructor
  · unfold ensureCollection createCollection
    cases h : s name <;> simp [h]
  · unfold ensureCollection createCollection
    cases h : s name <;> simp [h]

/-- C10: registering a file changes only its own registry entry — any
other id reads the same record as before — and an already-present record
for the same id is replaced entirely by the fresh record built from the
arguments (last write wins). -/
theorem C10_register_frame (reg : Registry) (fid g filename : String)
    (ct : DocumentType) (size : Nat) (path : String) (desc : Option String)
    (now : String) (hne : g ≠ fid) :
    getFileMetadata (registerUploadedFile reg fid filename ct size path desc now) g
      = getFileMetadata reg g ∧
    getFileMetadata (registerUploadedFile reg fid filename ct size path desc now) fid
      = some ⟨filename, ct, size, desc, now, path⟩ := by
  constructor
  · simp [getFileMetadata, registerUploadedFile, hne]
  · simp [getFileMetadata, registerUploadedFile]

/-- Witness for C10: registering "F" in a registry holding "G" leaves
"G"'s record unchanged and installs the fresh record under "F". -/
theorem C10_register_frame_witness :
    getFileMetadata
        (registerUploadedFile regC10 "F" "f.pdf" .pdf 42 "uploads/f.pdf" none
          "2026-02-02T00:00:00+00:00") "G"
      = getFileMetadata regC10 "G" ∧
    getFileMetadata
        (registerUploadedFile regC10 "F" "f.pdf" .pdf 42 "uploads/f.pdf" none
          "2026-02-02T00:00:00+00:00") "F"
      = some ⟨"f.pdf", .pdf, 42, none, "2026-02-02T00:00:00+00:00", "uploads/f.pdf"⟩ :=
  C10_register_frame regC10 "F" "G" "f.pdf" .pdf 42 "uploads/f.pdf" none
    "2026-02-02T00:00:00+00:00" (by decide)
